import Mathlib

/-!
# Verification of the `ggu` combinators (`utils/utils.go`)

The four combinators `IfElse`, `If`, `Repeat` and `Map` are embedded from
`utils/utils.go`.  They build values of the type `gg.Node`, which lives in the
root package `github.com/assaidy/gg`; that package is modelled from the
specification (sections 3 and 6 and the glossary).
-/

namespace ggu

/-! ## The node-tree library (package `gg`) -/

/-- Modelled from the spec: the type `gg.Node` of the root package, which the
combinators import.  The spec describes it as "an opaque tree element with an
ordered list of child Nodes" that has some own content; the source reads and
writes the child list as the field `Children`.  `text` is the node's own text. -/
inductive Node where
  | mk (text : String) (Children : List Node) : Node

/-- Own content of a node. -/
def Node.text : Node → String
  | .mk t _ => t

/-- The ordered child list of a node (field `Children` in the source). -/
def Node.Children : Node → List Node
  | .mk _ cs => cs

/-- The assignment `result.Children = cs` on a node value. -/
def Node.setChildren : Node → List Node → Node
  | .mk t _, cs => .mk t cs

/-- Modelled from the spec: `gg.Empty()`, described as "NewEmptyNode() → Node:
constructs a Node representing no content, no children". -/
def Empty : Node := .mk "" []

mutual
/-- Modelled from the spec: `gg.Render`, which "produces markup text by
concatenating the node's own representation with its children's
representations in child order, with no added separators between siblings". -/
def Render : Node → String
  | .mk t cs => t ++ RenderAll cs
/-- Renderings of a list of siblings, one after the other, no separator. -/
def RenderAll : List Node → String
  | [] => ""
  | c :: cs => Render c ++ RenderAll cs
end

/-! ## The combinators of `utils/utils.go` -/

/-- Function `IfElse` of `utils.go`: `if condition { return result }; return alternative`. -/
def IfElse {T : Type} (condition : Bool) (result alternative : T) : T :=
  if condition then result else alternative

/-- Function `If` of `utils.go`: `if condition { return result }; return gg.Empty()`. -/
def If (condition : Bool) (result : Node) : Node :=
  if condition then result else Empty

/-- The loop of `Repeat`: `k` remaining iterations, each running
`result.Children = append(result.Children, f())`.  The factory is a closure, so
it is a state-passing function: it reads the state `s`, and gives back the
produced node and the next state. -/
def Repeat.loop {σ : Type} (f : σ → Node × σ) : Nat → Node → σ → Node × σ
  | 0, result, s => (result, s)
  | k + 1, result, s =>
    let r := f s
    Repeat.loop f k (result.setChildren (result.Children ++ [r.1])) r.2

/-- Function `Repeat` of `utils.go`: `result := gg.Empty(); for range n { ... }; return result`.
`for range n` runs `n` iterations when `n > 0` and none when `n ≤ 0`. -/
def Repeat {σ : Type} (n : Int) (f : σ → Node × σ) (s : σ) : Node × σ :=
  Repeat.loop f n.toNat Empty s

/-- The loop of `Map`: for each remaining item, run
`result.Children = append(result.Children, f(item))`. -/
def Map.loop {T : Type} (f : T → Node) : List T → Node → Node
  | [], result => result
  | item :: rest, result =>
    Map.loop f rest (result.setChildren (result.Children ++ [f item]))

/-- Function `Map` of `utils.go`: `result := gg.Empty(); for _, item := range input { ... }; return result`. -/
def Map {T : Type} (input : List T) (f : T → Node) : Node :=
  Map.loop f input Empty

/-- The loop of `Map` for a transform that is a closure over mutable state: the
transform reads the state and gives back the produced node and the next state. -/
def MapState.loop {T σ : Type} (f : T → σ → Node × σ) : List T → Node → σ → Node × σ
  | [], result, s => (result, s)
  | item :: rest, result, s =>
    let r := f item s
    MapState.loop f rest (result.setChildren (result.Children ++ [r.1])) r.2

/-- Function `Map` of `utils.go` with a state-passing transform. -/
def MapState {T σ : Type} (input : List T) (f : T → σ → Node × σ) (s : σ) : Node × σ :=
  MapState.loop f input Empty s

/-- The loop of `Map` for a transform that may fail.  A failing call of `f`
leaves the loop at once with that failure (a Go panic unwinds through `Map`,
which has no `recover`); `Map` itself has no failing statement. -/
def MapExcept.loop {T ε : Type} (f : T → Except ε Node) : List T → Node → Except ε Node
  | [], result => .ok result
  | item :: rest, result =>
    match f item with
    | .error e => .error e
    | .ok c => MapExcept.loop f rest (result.setChildren (result.Children ++ [c]))

/-- Function `Map` of `utils.go` with a transform that may fail. -/
def MapExcept {T ε : Type} (input : List T) (f : T → Except ε Node) : Except ε Node :=
  MapExcept.loop f input Empty

/-- The loop of `Repeat` for a state-passing factory that may fail.  A failing
call leaves the loop at once with that failure. -/
def RepeatExcept.loop {σ ε : Type} (f : σ → Except ε (Node × σ)) :
    Nat → Node → σ → Except ε (Node × σ)
  | 0, result, s => .ok (result, s)
  | k + 1, result, s =>
    match f s with
    | .error e => .error e
    | .ok r => RepeatExcept.loop f k (result.setChildren (result.Children ++ [r.1])) r.2

/-- Function `Repeat` of `utils.go` with a factory that may fail. -/
def RepeatExcept {σ ε : Type} (n : Int) (f : σ → Except ε (Node × σ)) (s : σ) :
    Except ε (Node × σ) :=
  RepeatExcept.loop f n.toNat Empty s

/-- Outcome of invocation number `i` (counted from zero) of a failing factory
started in state `s`: the invocations before it run first, each in the state the
previous one left, and a failure among them is the outcome. -/
def nthCall {σ ε : Type} (f : σ → Except ε (Node × σ)) (s : σ) : Nat → Except ε (Node × σ)
  | 0 => f s
  | i + 1 =>
    match f s with
    | .error e => .error e
    | .ok r => nthCall f r.2 i

/-- Whether an outcome is a failure. -/
def failed {ε α : Type} : Except ε α → Bool
  | .error _ => true
  | .ok _ => false

/-- Modelled from the spec: `gg.Li(s)` for a text `s`, the `ListItemNode` of the
spec's scenarios, which renders as `<li>s</li>`.  In the node model its own
text is that markup and it has no children. -/
def Li (s : String) : Node := .mk ("<li>" ++ s ++ "</li>") []

/-- A factory whose nodes differ from call to call: the state counts the calls,
and call number `k` produces the list item `"a"` for `k = 0`, `"b"` after. -/
def abFactory (k : Nat) : Node × Nat :=
  (Li (if k = 0 then "a" else "b"), k + 1)

/-- A transform that fails on the elements from ten on, reporting the element,
and produces a list item otherwise. -/
def liOrFail (k : Nat) : Except Nat Node :=
  if k < 10 then .ok (Li "x") else .error k

/-- A factory that produces two list items and fails from its third call on,
reporting the number of calls made before. -/
def twiceThenFail (k : Nat) : Except Nat (Node × Nat) :=
  if k < 2 then .ok (Li "x", k + 1) else .error k

/-- A second closure with the behaviour of `abFactory`, written differently: it
keeps a flag "called before" where `abFactory` keeps a call count. -/
def abFactoryFlag (called : Bool) : Node × Bool :=
  (Li (if called then "b" else "a"), true)

/-- States of `abFactory` and of `abFactoryFlag` that stand for the same history
of calls: the flag is set exactly when the count is not zero. -/
def sameHistory (k : Nat) (called : Bool) : Prop :=
  called = decide (k ≠ 0)

/-- A list item wrapped in a node without text of its own: another node, with
the rendering of the list item. -/
def wrappedLi (s : String) : Node := .mk "" [Li s]

/-- A factory instrumented with an invocation counter: every call of the
instrumented factory runs the factory once and adds one to the counter. -/
def counted {σ : Type} (f : σ → Node × σ) (p : σ × Nat) : Node × (σ × Nat) :=
  ((f p.1).1, ((f p.1).2, p.2 + 1))

/-- The state a factory leaves behind, as a function of the state it found. -/
def nextState {σ : Type} (f : σ → Node × σ) (s : σ) : σ := (f s).2

/-- The node produced by invocation number `i` (counted from zero) of a factory
that starts in state `s`. -/
def nthProduced {σ : Type} (f : σ → Node × σ) (s : σ) (i : Nat) : Node :=
  (f ((nextState f)^[i] s)).1

/-! ## Basic facts about the node model -/

theorem join_cons (a : String) (l : List String) :
    String.join (a :: l) = a ++ String.join l := by
  simp [String.join_eq, String.ext_iff]

theorem join_append (l₁ l₂ : List String) :
    String.join (l₁ ++ l₂) = String.join l₁ ++ String.join l₂ := by
  simp [String.join_eq, String.ext_iff]

theorem join_nil : String.join [] = "" := rfl

theorem Children_setChildren (r : Node) (cs : List Node) :
    (r.setChildren cs).Children = cs := by
  cases r; rfl

theorem text_setChildren (r : Node) (cs : List Node) :
    (r.setChildren cs).text = r.text := by
  cases r; rfl

theorem setChildren_setChildren (r : Node) (cs ds : List Node) :
    (r.setChildren cs).setChildren ds = r.setChildren ds := by
  cases r; rfl

theorem RenderAll_eq_join (cs : List Node) :
    RenderAll cs = String.join (cs.map Render) := by
  induction cs with
  | nil => simp [RenderAll, join_nil]
  | cons c cs ih => simp [RenderAll, join_cons, ih]

theorem Render_eq (r : Node) :
    Render r = r.text ++ String.join (r.Children.map Render) := by
  cases r with
  | mk t cs => simp [Render, Node.text, Node.Children, RenderAll_eq_join]

theorem Children_Empty : Empty.Children = [] := rfl

theorem Render_Empty : Render Empty = "" := by
  simp [Empty, Render, RenderAll]

theorem Render_Empty_setChildren (cs : List Node) :
    Render (Empty.setChildren cs) = String.join (cs.map Render) := by
  simp [Empty, Node.setChildren, Render, RenderAll_eq_join]

/-! ## The loops -/

theorem Repeat_loop_eq {σ : Type} (f : σ → Node × σ) (k : Nat) (result : Node) (s : σ) :
    Repeat.loop f k result s =
      (result.setChildren (result.Children ++ (List.range k).map (nthProduced f s)),
       (nextState f)^[k] s) := by
  induction k generalizing result s with
  | zero => cases result; simp [Repeat.loop, Node.setChildren, Node.Children]
  | succ k ih =>
    rw [Repeat.loop, ih, List.range_succ_eq_map]
    simp only [Children_setChildren, setChildren_setChildren, List.map_cons, List.map_map,
      List.append_assoc, List.singleton_append, Function.iterate_succ, Function.comp_apply]
    rfl

theorem Repeat_loop_counted {σ : Type} (f : σ → Node × σ) (k : Nat) (result : Node)
    (s : σ) (c : Nat) :
    Repeat.loop (counted f) k result (s, c) =
      ((Repeat.loop f k result s).1, ((Repeat.loop f k result s).2, c + k)) := by
  induction k generalizing result s c with
  | zero => simp [Repeat.loop]
  | succ k ih =>
    rw [Repeat.loop, Repeat.loop]
    simp only [counted]
    rw [ih]
    simp only [Nat.add_assoc, Nat.add_comm 1 k]

theorem Map_loop_eq {T : Type} (f : T → Node) (input : List T) (result : Node) :
    Map.loop f input result = result.setChildren (result.Children ++ input.map f) := by
  induction input generalizing result with
  | nil => cases result; simp [Map.loop, Node.setChildren, Node.Children]
  | cons x xs ih =>
    rw [Map.loop, ih]
    simp [Children_setChildren, setChildren_setChildren]

theorem Render_append_child (r c : Node) :
    Render (r.setChildren (r.Children ++ [c])) = Render r ++ Render c := by
  cases r with
  | mk t cs =>
    simp [Node.setChildren, Node.Children, Render, RenderAll_eq_join, join_append, join_cons,
      join_nil, String.append_assoc]

theorem Repeat_loop_rel {σ σ' : Type} (f : σ → Node × σ) (f' : σ' → Node × σ')
    (R : σ → σ' → Prop)
    (hf : ∀ t t', R t t' → Render (f t).1 = Render (f' t').1 ∧ R (f t).2 (f' t').2)
    (k : Nat) (result result' : Node) (s : σ) (s' : σ')
    (hr : Render result = Render result') (hs : R s s') :
    Render (Repeat.loop f k result s).1 = Render (Repeat.loop f' k result' s').1 ∧
      R (Repeat.loop f k result s).2 (Repeat.loop f' k result' s').2 := by
  induction k generalizing result result' s s' with
  | zero => exact ⟨hr, hs⟩
  | succ k ih =>
    rw [Repeat.loop, Repeat.loop]
    refine ih _ _ _ _ ?_ (hf s s' hs).2
    rw [Render_append_child, Render_append_child, hr, (hf s s' hs).1]

theorem Map_loop_rel {T : Type} (f f' : T → Node) (xs : List T)
    (hf : ∀ x ∈ xs, Render (f x) = Render (f' x)) (result result' : Node)
    (hr : Render result = Render result') :
    Render (Map.loop f xs result) = Render (Map.loop f' xs result') := by
  induction xs generalizing result result' with
  | nil => exact hr
  | cons x xs ih =>
    rw [Map.loop, Map.loop]
    refine ih (fun y hy => hf y (List.mem_cons_of_mem x hy)) _ _ ?_
    rw [Render_append_child, Render_append_child, hr, hf x (List.mem_cons_self x xs)]

theorem MapState_loop_rel {T σ σ' : Type} (g : T → σ → Node × σ) (g' : T → σ' → Node × σ')
    (R : σ → σ' → Prop) (xs : List T)
    (hg : ∀ x ∈ xs, ∀ t t', R t t' →
      Render (g x t).1 = Render (g' x t').1 ∧ R (g x t).2 (g' x t').2)
    (result result' : Node) (s : σ) (s' : σ')
    (hr : Render result = Render result') (hs : R s s') :
    Render (MapState.loop g xs result s).1 = Render (MapState.loop g' xs result' s').1 ∧
      R (MapState.loop g xs result s).2 (MapState.loop g' xs result' s').2 := by
  induction xs generalizing result result' s s' with
  | nil => exact ⟨hr, hs⟩
  | cons x xs ih =>
    have hx := hg x (List.mem_cons_self x xs) s s' hs
    rw [MapState.loop, MapState.loop]
    refine ih (fun y hy => hg y (List.mem_cons_of_mem x hy)) _ _ _ _ ?_ hx.2
    rw [Render_append_child, Render_append_child, hr, hx.1]

theorem MapExcept_loop_failed {T ε : Type} (f : T → Except ε Node) (xs : List T)
    (result : Node) :
    failed (MapExcept.loop f xs result) = true ↔ ∃ x ∈ xs, failed (f x) = true := by
  induction xs generalizing result with
  | nil => simp [MapExcept.loop, failed]
  | cons x xs ih =>
    rw [MapExcept.loop]
    cases h : f x with
    | error e =>
      have hx : failed (f x) = true := by rw [h]; rfl
      simp only [failed, true_iff]
      exact ⟨x, List.mem_cons_self x xs, hx⟩
    | ok c =>
      have hx : failed (f x) = false := by rw [h]; rfl
      simp only [ih, List.mem_cons, exists_eq_or_imp, hx, Bool.false_eq_true, false_or]

theorem MapExcept_loop_first {T ε : Type} (f : T → Except ε Node) (pre : List T) (x : T)
    (post : List T) (e : ε) (hpre : ∀ y ∈ pre, failed (f y) = false) (hx : f x = .error e)
    (result : Node) :
    MapExcept.loop f (pre ++ x :: post) result = .error e := by
  induction pre generalizing result with
  | nil => simp [MapExcept.loop, hx]
  | cons y ys ih =>
    have hy : failed (f y) = false := hpre y (List.mem_cons_self y ys)
    rw [List.cons_append, MapExcept.loop]
    cases h : f y with
    | error e' => rw [h] at hy; simp [failed] at hy
    | ok c => exact ih (fun z hz => hpre z (List.mem_cons_of_mem y hz)) _

theorem MapExcept_loop_ok {T ε : Type} (f : T → Except ε Node) (g : T → Node)
    (xs : List T) (hg : ∀ x ∈ xs, f x = .ok (g x)) (result : Node) :
    MapExcept.loop f xs result = .ok (Map.loop g xs result) := by
  induction xs generalizing result with
  | nil => rfl
  | cons x xs ih =>
    rw [MapExcept.loop, Map.loop, hg x (List.mem_cons_self x xs)]
    exact ih (fun z hz => hg z (List.mem_cons_of_mem x hz)) _

theorem RepeatExcept_loop_failed {σ ε : Type} (f : σ → Except ε (Node × σ)) (k : Nat)
    (result : Node) (s : σ) :
    failed (RepeatExcept.loop f k result s) = true ↔
      ∃ i, i < k ∧ failed (nthCall f s i) = true := by
  induction k generalizing result s with
  | zero => simp [RepeatExcept.loop, failed]
  | succ k ih =>
    rw [RepeatExcept.loop]
    cases h : f s with
    | error e =>
      simp only [failed, true_iff]
      exact ⟨0, Nat.succ_pos k, by simp [nthCall, h, failed]⟩
    | ok r =>
      simp only [ih]
      constructor
      · rintro ⟨i, hi, hfail⟩
        exact ⟨i + 1, Nat.succ_lt_succ hi, by simpa [nthCall, h] using hfail⟩
      · rintro ⟨i, hi, hfail⟩
        cases i with
        | zero => simp [nthCall, h, failed] at hfail
        | succ j => exact ⟨j, Nat.lt_of_succ_lt_succ hi, by simpa [nthCall, h] using hfail⟩

theorem RepeatExcept_loop_first {σ ε : Type} (f : σ → Except ε (Node × σ)) (k : Nat) :
    ∀ (result : Node) (s : σ) (i : Nat) (e : ε), i < k →
      (∀ j, j < i → failed (nthCall f s j) = false) → nthCall f s i = .error e →
      RepeatExcept.loop f k result s = .error e := by
  induction k with
  | zero => intro _ _ i _ hi; exact absurd hi (Nat.not_lt_zero i)
  | succ k ih =>
    intro result s i e hi hbefore hcall
    rw [RepeatExcept.loop]
    cases h : f s with
    | error e' =>
      cases i with
      | zero =>
        rw [nthCall, h] at hcall
        exact hcall
      | succ j =>
        have h0 := hbefore 0 (Nat.succ_pos j)
        simp [nthCall, h, failed] at h0
    | ok r =>
      cases i with
      | zero =>
        rw [nthCall, h] at hcall
        cases hcall
      | succ j =>
        have hcall' : nthCall f r.2 j = .error e := by simpa [nthCall, h] using hcall
        refine ih _ r.2 j e (Nat.lt_of_succ_lt_succ hi) ?_ hcall'
        intro m hm
        have := hbefore (m + 1) (Nat.succ_lt_succ hm)
        simpa [nthCall, h] using this

theorem RepeatExcept_loop_ok {σ ε : Type} (f : σ → Except ε (Node × σ)) (g : σ → Node × σ)
    (hg : ∀ t, f t = .ok (g t)) (k : Nat) (result : Node) (s : σ) :
    RepeatExcept.loop f k result s = .ok (Repeat.loop g k result s) := by
  induction k generalizing result s with
  | zero => rfl
  | succ k ih =>
    rw [RepeatExcept.loop, Repeat.loop, hg s]
    exact ih _ _

/-! ## The contract of the four combinators -/

/-- C1: `IfElse(condition, a, b)` is `a` when the condition is true and `b` when
it is false, for every type and every pair of values; `IfElse(true, "active",
"inactive")` is `"active"`; on nodes the selected node itself is returned, so
the rendering of the result is the rendering of the selected node. -/
theorem IfElse_selects :
    (∀ (T : Type) (a b : T), IfElse true a b = a ∧ IfElse false a b = b) ∧
    IfElse true "active" "inactive" = "active" ∧
    (∀ a b : Node, IfElse true a b = a ∧ IfElse false a b = b ∧
      Render (IfElse true a b) = Render a ∧ Render (IfElse false a b) = Render b) :=
  ⟨fun _ _ _ => ⟨rfl, rfl⟩, rfl, fun _ _ => ⟨rfl, rfl, rfl, rfl⟩⟩

/-- C2: the rendering of `If(condition, node)` is the rendering of `node` when
the condition is true and the empty string when it is false, where the rendering
of a node is its own text followed by the renderings of its children in child
order, and the empty node has no own text and no children. -/
theorem If_render (node : Node) :
    Render (If true node) = Render node ∧
    Render (If false node) = "" ∧
    (∀ r : Node, Render r = r.text ++ String.join (r.Children.map Render)) ∧
    Empty.text = "" ∧ Empty.Children = [] :=
  ⟨rfl, Render_Empty, Render_eq, rfl, rfl⟩

/-- C3: for `n > 0`, `Repeat(n, factory)` invokes the factory exactly `n` times
(the invocation counter of the instrumented factory ends at `n`, and the
factory state is the one left by `n` successive calls), child number `i` of the
result is the node produced by invocation number `i`, and the rendering of the
result is the concatenation, in call order, of the renderings of those nodes. -/
theorem Repeat_pos {σ : Type} (n : Int) (hn : 0 < n) (f : σ → Node × σ) (s : σ) :
    ((Repeat n (counted f) (s, 0)).2.2 : Int) = n ∧
    (Repeat n (counted f) (s, 0)).1 = (Repeat n f s).1 ∧
    (Repeat n f s).2 = (nextState f)^[n.toNat] s ∧
    (Repeat n f s).1.Children = (List.range n.toNat).map (nthProduced f s) ∧
    ((Repeat n f s).1.Children.length : Int) = n ∧
    Render (Repeat n f s).1 =
      String.join ((List.range n.toNat).map (fun i => Render (nthProduced f s i))) := by
  have h : ((n.toNat : Nat) : Int) = n := Int.toNat_of_nonneg (le_of_lt hn)
  refine ⟨?_, ?_, ?_, ?_, ?_, ?_⟩
  · simp [Repeat, Repeat_loop_counted, h]
  · simp [Repeat, Repeat_loop_counted]
  · simp [Repeat, Repeat_loop_eq]
  · simp [Repeat, Repeat_loop_eq, Children_setChildren, Children_Empty]
  · simp [Repeat, Repeat_loop_eq, Children_setChildren, Children_Empty, h]
  · simp only [Repeat, Repeat_loop_eq]
    rw [Children_Empty, List.nil_append, Render_Empty_setChildren, List.map_map]
    rfl

/-- Witness for C3: two calls of a factory whose nodes differ from call to call. -/
theorem Repeat_pos_witness :
    (0 : Int) < 2 ∧
    (((Repeat 2 (counted abFactory) (0, 0)).2.2 : Int) = 2 ∧
    (Repeat 2 (counted abFactory) (0, 0)).1 = (Repeat 2 abFactory 0).1 ∧
    (Repeat 2 abFactory 0).2 = (nextState abFactory)^[(2 : Int).toNat] 0 ∧
    (Repeat 2 abFactory 0).1.Children = (List.range (2 : Int).toNat).map (nthProduced abFactory 0) ∧
    ((Repeat 2 abFactory 0).1.Children.length : Int) = 2 ∧
    Render (Repeat 2 abFactory 0).1 =
      String.join ((List.range (2 : Int).toNat).map (fun i => Render (nthProduced abFactory 0 i)))) ∧
    Render (Repeat 2 abFactory 0).1 = "<li>a</li><li>b</li>" :=
  ⟨by decide, Repeat_pos 2 (by decide) abFactory 0, by decide⟩

/-- C4: for `n ≤ 0`, zero or negative, `Repeat(n, factory)` invokes the factory
zero times (the invocation counter stays at zero and the factory state is
untouched) and returns the empty container: no children, rendering `""`. -/
theorem Repeat_nonpos {σ : Type} (n : Int) (hn : n ≤ 0) (f : σ → Node × σ) (s : σ) :
    (Repeat n (counted f) (s, 0)).2.2 = 0 ∧
    (Repeat n f s).2 = s ∧
    (Repeat n f s).1 = Empty ∧
    (Repeat n f s).1.Children = [] ∧
    Render (Repeat n f s).1 = "" := by
  have h : n.toNat = 0 := Int.toNat_eq_zero.mpr hn
  simp [Repeat, h, Repeat.loop, Render_Empty, Children_Empty]

/-- Witness for C4: a negative count. -/
theorem Repeat_nonpos_witness :
    (-3 : Int) ≤ 0 ∧
    ((Repeat (-3) (counted abFactory) (0, 0)).2.2 = 0 ∧
    (Repeat (-3) abFactory 0).2 = 0 ∧
    (Repeat (-3) abFactory 0).1 = Empty ∧
    (Repeat (-3) abFactory 0).1.Children = [] ∧
    Render (Repeat (-3) abFactory 0).1 = "") :=
  ⟨by decide, Repeat_nonpos (-3) (by decide) abFactory 0⟩

/-- C5: the rendering of `Map(xs, f)` is the concatenation, in the order of `xs`
and with no separator, of the renderings of `f(x)` for the elements `x` of `xs`;
for the empty sequence it is the empty string, and for the list items of
`"a"`, `"b"`, `"c"` it is `<li>a</li><li>b</li><li>c</li>`. -/
theorem Map_render {T : Type} (xs : List T) (f : T → Node) :
    Render (Map xs f) = String.join (xs.map (fun x => Render (f x))) ∧
    Render (Map ([] : List T) f) = "" ∧
    Render (Map ["a", "b", "c"] Li) = "<li>a</li><li>b</li><li>c</li>" := by
  refine ⟨?_, Render_Empty, by decide⟩
  rw [Map, Map_loop_eq, Children_Empty, List.nil_append, Render_Empty_setChildren,
    List.map_map]
  rfl

/-- C6: the child list of `Map(xs, f)` is `[f(xs[0]), ..., f(xs[len-1])]`: as
long as `xs`, child number `i` being `f` of element number `i`, nothing
reordered, dropped or merged, also when `f` returns the empty node for every
element and when `xs` holds the same element several times. -/
theorem Map_children {T : Type} (xs : List T) (f : T → Node) :
    (Map xs f).Children = xs.map f ∧
    (Map xs f).Children.length = xs.length ∧
    (∀ i : Nat, (Map xs f).Children[i]? = (xs[i]?).map f) ∧
    (Map xs (fun _ => Empty)).Children = List.replicate xs.length Empty ∧
    (∀ (k : Nat) (x : T), (Map (List.replicate k x) f).Children = List.replicate k (f x)) := by
  have h : ∀ (ys : List T) (g : T → Node), (Map ys g).Children = ys.map g := by
    intro ys g
    rw [Map, Map_loop_eq, Children_setChildren, Children_Empty, List.nil_append]
  refine ⟨h xs f, ?_, ?_, ?_, ?_⟩
  · rw [h, List.length_map]
  · intro i
    rw [h, List.getElem?_map]
  · rw [h]
    simp
  · intro k x
    rw [h, List.map_replicate]

/-- C7: `If(true, node)` is `node` itself, `If(false, node)` is the empty node,
which has no content and no children, whatever `node` is; the result is always
one of these two nodes. -/
theorem If_result (condition : Bool) (node : Node) :
    If true node = node ∧
    If false node = Empty ∧
    Empty.text = "" ∧ Empty.Children = [] ∧
    (If condition node = node ∨ If condition node = Empty) := by
  refine ⟨rfl, rfl, rfl, rfl, ?_⟩
  cases condition
  · exact Or.inr rfl
  · exact Or.inl rfl

/-- C8: for `n ≥ 0` and a factory that produces the same node `v` at every
invocation, `Repeat(n, factory)` has exactly `n` children, all equal to `v`,
and its rendering is the rendering of `v` repeated `n` times. -/
theorem Repeat_constant {σ : Type} (n : Int) (hn : 0 ≤ n) (f : σ → Node × σ) (v : Node)
    (hv : ∀ s, (f s).1 = v) (s : σ) :
    (Repeat n f s).1.Children = List.replicate n.toNat v ∧
    ((Repeat n f s).1.Children.length : Int) = n ∧
    (∀ c ∈ (Repeat n f s).1.Children, c = v) ∧
    Render (Repeat n f s).1 = String.join (List.replicate n.toNat (Render v)) := by
  have hp : (List.range n.toNat).map (nthProduced f s) = List.replicate n.toNat v := by
    have : nthProduced f s = fun _ => v := by
      funext i
      exact hv _
    rw [this]
    induction n.toNat with
    | zero => rfl
    | succ k ih => rw [List.range_succ, List.map_append, ih, List.replicate_succ']; rfl
  have hc : (Repeat n f s).1.Children = List.replicate n.toNat v := by
    rw [Repeat, Repeat_loop_eq, Children_setChildren, Children_Empty, List.nil_append, hp]
  refine ⟨hc, ?_, ?_, ?_⟩
  · rw [hc, List.length_replicate]
    exact Int.toNat_of_nonneg hn
  · intro c hmem
    rw [hc] at hmem
    exact List.eq_of_mem_replicate hmem
  · rw [Repeat, Repeat_loop_eq, Children_Empty, List.nil_append, Render_Empty_setChildren, hp,
      List.map_replicate]

/-- Witness for C8: three list items `"x"`. -/
theorem Repeat_constant_witness :
    ((0 : Int) ≤ 3 ∧ ∀ s : Unit, ((fun u : Unit => (Li "x", u)) s).1 = Li "x") ∧
    ((Repeat 3 (fun u : Unit => (Li "x", u)) ()).1.Children = List.replicate (3 : Int).toNat (Li "x") ∧
    ((Repeat 3 (fun u : Unit => (Li "x", u)) ()).1.Children.length : Int) = 3 ∧
    (∀ c ∈ (Repeat 3 (fun u : Unit => (Li "x", u)) ()).1.Children, c = Li "x") ∧
    Render (Repeat 3 (fun u : Unit => (Li "x", u)) ()).1 =
      String.join (List.replicate (3 : Int).toNat (Render (Li "x")))) ∧
    Render (Repeat 3 (fun u : Unit => (Li "x", u)) ()).1 = "<li>x</li><li>x</li><li>x</li>" :=
  ⟨⟨by decide, fun _ => rfl⟩,
   Repeat_constant 3 (by decide) (fun u : Unit => (Li "x", u)) (Li "x") (fun _ => rfl) (),
   by decide⟩

/-- C9: determinism.  For each of `IfElse`, `If`, `Repeat` and `Map`, two calls
with equal conditions, counts and input sequences give results with the same
rendering as soon as their other arguments are equivalent: values that are
observed alike, nodes with the same rendering, and factories or transforms that
behave alike from the states they start in, which means that from related
states they produce nodes with the same rendering and leave related states.
The second closure may be a fresh one, with captured variables of its own and
of another type.  Equal values, closures that agree on every argument and
equal start states are the case where both relations are equality. -/
theorem combinators_deterministic {T U β σ σ' : Type}
    (c c' : Bool) (obs : T → β) (a a' b b' : T) (p p' : Node) (n n' : Int)
    (fac : σ → Node × σ) (fac' : σ' → Node × σ') (R : σ → σ' → Prop) (s : σ) (s' : σ')
    (xs xs' : List U) (f f' : U → Node) (g : U → σ → Node × σ) (g' : U → σ' → Node × σ')
    (hc : c = c') (ha : obs a = obs a') (hb : obs b = obs b') (hp : Render p = Render p')
    (hn : n = n')
    (hfac : ∀ t t', R t t' → Render (fac t).1 = Render (fac' t').1 ∧ R (fac t).2 (fac' t').2)
    (hs : R s s') (hxs : xs = xs')
    (hf : ∀ x ∈ xs, Render (f x) = Render (f' x))
    (hg : ∀ x ∈ xs, ∀ t t', R t t' →
      Render (g x t).1 = Render (g' x t').1 ∧ R (g x t).2 (g' x t').2) :
    obs (IfElse c a b) = obs (IfElse c' a' b') ∧
    Render (If c p) = Render (If c' p') ∧
    Render (Repeat n fac s).1 = Render (Repeat n' fac' s').1 ∧
    R (Repeat n fac s).2 (Repeat n' fac' s').2 ∧
    Render (Map xs f) = Render (Map xs' f') ∧
    Render (MapState xs g s).1 = Render (MapState xs' g' s').1 ∧
    R (MapState xs g s).2 (MapState xs' g' s').2 := by
  subst hc hn hxs
  have hR := Repeat_loop_rel fac fac' R hfac n.toNat Empty Empty s s' rfl hs
  have hS := MapState_loop_rel g g' R xs hg Empty Empty s s' rfl hs
  refine ⟨?_, ?_, hR.1, hR.2, Map_loop_rel f f' xs hf Empty Empty rfl, hS.1, hS.2⟩
  · cases c
    · exact hb
    · exact ha
  · cases c
    · rfl
    · exact hp

/-- Witness for C9: the second call gets other nodes with the same renderings
and closures written afresh, with a flag where the first ones keep a count;
both calls render alike, as `<li>a</li><li>b</li>` for `Repeat`.  The last part
is the case of equality: a closure written again with the same body, started in
the same state. -/
theorem combinators_deterministic_witness :
    (Render (IfElse true (Li "t") (Li "f")) = Render (IfElse true (wrappedLi "t") (Li "f")) ∧
    Render (If true (Li "t")) = Render (If true (wrappedLi "t")) ∧
    Render (Repeat 2 abFactory 0).1 = Render (Repeat 2 abFactoryFlag false).1 ∧
    sameHistory (Repeat 2 abFactory 0).2 (Repeat 2 abFactoryFlag false).2 ∧
    Render (Map ["a", "b", "c"] Li) = Render (Map ["a", "b", "c"] wrappedLi) ∧
    Render (MapState ["a", "b", "c"] (fun x k => (Li x, k + 1)) 0).1 =
      Render (MapState ["a", "b", "c"] (fun x _ => (wrappedLi x, true)) false).1 ∧
    sameHistory (MapState ["a", "b", "c"] (fun x k => (Li x, k + 1)) 0).2
      (MapState ["a", "b", "c"] (fun x _ => (wrappedLi x, true)) false).2) ∧
    Render (Repeat 2 abFactoryFlag false).1 = "<li>a</li><li>b</li>" ∧
    Render (Map ["a", "b", "c"] wrappedLi) = "<li>a</li><li>b</li><li>c</li>" ∧
    Render (Repeat 2 abFactory 0).1 =
      Render (Repeat 2 (fun k => (Li (if k = 0 then "a" else "b"), k + 1)) 0).1 :=
  ⟨combinators_deterministic true true Render (Li "t") (wrappedLi "t") (Li "f") (Li "f")
      (Li "t") (wrappedLi "t") 2 2 abFactory abFactoryFlag sameHistory 0 false
      ["a", "b", "c"] ["a", "b", "c"] Li wrappedLi
      (fun x k => (Li x, k + 1)) (fun x _ => (wrappedLi x, true))
      rfl (by decide) rfl (by decide) rfl
      (by
        intro t t' h
        cases t with
        | zero =>
          simp [sameHistory] at h
          subst h
          exact ⟨by decide, by simp [sameHistory, abFactory, abFactoryFlag]⟩
        | succ k =>
          simp [sameHistory] at h
          subst h
          exact ⟨by simp [abFactory, abFactoryFlag],
            by simp [sameHistory, abFactory, abFactoryFlag]⟩)
      (by simp [sameHistory]) rfl
      (by
        intro x _
        simp [wrappedLi, Li, Render, RenderAll])
      (by
        intro x _ t t' _
        exact ⟨by simp [wrappedLi, Li, Render, RenderAll], by simp [sameHistory]⟩),
   by decide, by decide,
   (combinators_deterministic true true Render (Li "t") (Li "t") (Li "f") (Li "f")
      (Li "t") (Li "t") 2 2 abFactory (fun k => (Li (if k = 0 then "a" else "b"), k + 1))
      Eq 0 0 ["a"] ["a"] Li Li (fun x k => (Li x, k + 1)) (fun x k => (Li x, k + 1))
      rfl rfl rfl rfl rfl
      (by
        intro t t' h
        subst h
        exact ⟨rfl, rfl⟩)
      rfl rfl (fun _ _ => rfl)
      (by
        intro x _ t t' h
        subst h
        exact ⟨rfl, rfl⟩)).2.2.1⟩

/-- C10: with a transform that may fail, `Map(xs, f)` fails exactly when `f`
fails on some element of `xs`, the failure reported is the one `f` raises on the
first such element, and when `f` succeeds everywhere `Map` succeeds with the
result of the failure-free `Map`.  Likewise `Repeat(n, factory)` fails exactly
when one of its `max(n, 0)` invocations fails, reporting the first such failure. -/
theorem failures_propagate {T σ ε : Type} (xs : List T) (f : T → Except ε Node)
    (n : Int) (fac : σ → Except ε (Node × σ)) (s : σ) :
    (failed (MapExcept xs f) = true ↔ ∃ x ∈ xs, failed (f x) = true) ∧
    (∀ (pre : List T) (x : T) (post : List T) (e : ε), xs = pre ++ x :: post →
      (∀ y ∈ pre, failed (f y) = false) → f x = .error e → MapExcept xs f = .error e) ∧
    (∀ g : T → Node, (∀ x ∈ xs, f x = .ok (g x)) → MapExcept xs f = .ok (Map xs g)) ∧
    (failed (RepeatExcept n fac s) = true ↔
      ∃ i, i < n.toNat ∧ failed (nthCall fac s i) = true) ∧
    (∀ (i : Nat) (e : ε), i < n.toNat → (∀ j, j < i → failed (nthCall fac s j) = false) →
      nthCall fac s i = .error e → RepeatExcept n fac s = .error e) ∧
    (∀ g : σ → Node × σ, (∀ t, fac t = .ok (g t)) →
      RepeatExcept n fac s = .ok (Repeat n g s)) := by
  refine ⟨MapExcept_loop_failed f xs Empty, ?_, ?_, RepeatExcept_loop_failed fac _ Empty s,
    ?_, ?_⟩
  · intro pre x post e hxs hpre hx
    rw [hxs]
    exact MapExcept_loop_first f pre x post e hpre hx Empty
  · intro g hg
    exact MapExcept_loop_ok f g xs hg Empty
  · intro i e hi hbefore hcall
    exact RepeatExcept_loop_first fac _ Empty s i e hi hbefore hcall
  · intro g hg
    exact RepeatExcept_loop_ok fac g hg _ Empty s

/-- Witness for C10: of two failing elements, and of the failing calls of a
factory, the first one is reported. -/
theorem failures_propagate_witness :
    MapExcept [1, 12, 3, 15] liOrFail = .error 12 ∧
    RepeatExcept 5 twiceThenFail 0 = .error 2 ∧
    MapExcept [1, 2] liOrFail = .ok (Map [1, 2] (fun _ => Li "x")) :=
  ⟨(failures_propagate [1, 12, 3, 15] liOrFail 5 twiceThenFail 0).2.1 [1] 12 [3, 15] 12 rfl
      (by decide) rfl,
   (failures_propagate [1, 12, 3, 15] liOrFail 5 twiceThenFail 0).2.2.2.2.1 2 2 (by decide)
      (by decide) rfl,
   (failures_propagate [1, 2] liOrFail 0 twiceThenFail 0).2.2.1 (fun _ => Li "x")
      (by simp [liOrFail])⟩

/-! ## Structure of the containers -/

theorem Map_eq_setChildren {T : Type} (xs : List T) (f : T → Node) :
    Map xs f = Empty.setChildren (xs.map f) := by
  rw [Map, Map_loop_eq, Children_Empty, List.nil_append]

theorem Repeat_eq_setChildren {σ : Type} (n : Int) (f : σ → Node × σ) (s : σ) :
    (Repeat n f s).1 = Empty.setChildren ((List.range n.toNat).map (nthProduced f s)) := by
  rw [Repeat, Repeat_loop_eq, Children_Empty, List.nil_append]

theorem range_map_const (k : Nat) (v : Node) :
    (List.range k).map (fun _ => v) = List.replicate k v := by
  induction k with
  | zero => rfl
  | succ k ih => rw [List.range_succ, List.map_append, ih, List.replicate_succ']; rfl

theorem Render_Repeat_stateless (n : Nat) (v : Node) :
    Render (Repeat (n : Int) (fun u : Unit => (v, u)) ()).1 =
      String.join (List.replicate n (Render v)) := by
  rw [Repeat_eq_setChildren, Render_Empty_setChildren, Int.toNat_ofNat]
  have h : nthProduced (fun u : Unit => (v, u)) () = fun _ => v := rfl
  rw [h, range_map_const, List.map_replicate]

/-- C11: nested combinators compose as nested calls.  For every sequence `xs`,
every count `n ≥ 0` and every `g`, the rendering of
`Map(xs, x => Repeat(n, () => g(x)))` is the concatenation, over `x` in `xs` in
order, of the rendering of `g(x)` repeated `n` times; the containers built by
`Map` and by each `Repeat` have no text of their own. -/
theorem Map_Repeat_render {T : Type} (xs : List T) (n : Nat) (g : T → Node) :
    Render (Map xs (fun x => (Repeat (n : Int) (fun u : Unit => (g x, u)) ()).1)) =
      String.join (xs.map (fun x => String.join (List.replicate n (Render (g x))))) ∧
    (Map xs (fun x => (Repeat (n : Int) (fun u : Unit => (g x, u)) ()).1)).text = "" ∧
    (∀ x : T, (Repeat (n : Int) (fun u : Unit => (g x, u)) ()).1.text = "") ∧
    Render (Map ["a", "b"] (fun x => (Repeat 2 (fun u : Unit => (Li x, u)) ()).1)) =
      "<li>a</li><li>a</li><li>b</li><li>b</li>" := by
  refine ⟨?_, ?_, ?_, by decide⟩
  · rw [Map_eq_setChildren, Render_Empty_setChildren, List.map_map]
    have h : (Render ∘ fun x => (Repeat (n : Int) (fun u : Unit => (g x, u)) ()).1) =
        fun x => String.join (List.replicate n (Render (g x))) := by
      funext x
      exact Render_Repeat_stateless n (g x)
    rw [h]
  · rw [Map_eq_setChildren, text_setChildren]
    rfl
  · intro x
    rw [Repeat_eq_setChildren, text_setChildren]
    rfl

/-- C12: the container returned by `Repeat` and by `Map` has no content of its
own: it is the empty node with its child list replaced, so its own text is the
one of the empty node and it differs from the empty node in its children only. -/
theorem containers_only_children {T σ : Type} (n : Int) (fac : σ → Node × σ) (s : σ)
    (xs : List T) (f : T → Node) :
    (Repeat n fac s).1.text = Empty.text ∧
    (Repeat n fac s).1 = Empty.setChildren (Repeat n fac s).1.Children ∧
    (Map xs f).text = Empty.text ∧
    Map xs f = Empty.setChildren (Map xs f).Children := by
  refine ⟨?_, ?_, ?_, ?_⟩
  · rw [Repeat_eq_setChildren, text_setChildren]
  · rw [Repeat_eq_setChildren, Children_setChildren]
  · rw [Map_eq_setChildren, text_setChildren]
  · rw [Map_eq_setChildren, Children_setChildren]

/-- C13: `If` is `IfElse` on nodes with the empty node as the alternative:
`If(condition, node)` equals `IfElse(condition, node, Empty())` for every
condition and every node. -/
theorem If_eq_IfElse (condition : Bool) (node : Node) :
    If condition node = IfElse condition node Empty := by
  cases condition
  · show If false node = IfElse false node Empty
    rw [If, IfElse]
  · show If true node = IfElse true node Empty
    rw [If, IfElse]

/-- C14: `Map` distributes over concatenation of inputs: the child list of
`Map(xs ++ ys, f)` is the child list of `Map(xs, f)` followed by the one of
`Map(ys, f)`, and its rendering is the rendering of `Map(xs, f)` followed by
the rendering of `Map(ys, f)`. -/
theorem Map_append {T : Type} (xs ys : List T) (f : T → Node) :
    (Map (xs ++ ys) f).Children = (Map xs f).Children ++ (Map ys f).Children ∧
    Render (Map (xs ++ ys) f) = Render (Map xs f) ++ Render (Map ys f) := by
  constructor
  · simp only [Map_eq_setChildren, Children_setChildren, List.map_append]
  · simp only [Map_eq_setChildren, Render_Empty_setChildren, List.map_append, join_append]

end ggu
